import Mathlib

/-!
Shallow embedding of the client-side offline action queue of
`src/lib/offline/queue.ts`, together with the network-profile logic of
`src/lib/performance/network.ts` that the queue's scheduler consumes.

Conventions:
* JSON-serializable payloads (`payload: unknown`) are modelled by the mutual
  inductives `JsonValue` / `JsonSeq` / `JsonMembers` (numbers as `Int`:
  every payload appearing in the development is integral).  Object fields
  are kept in insertion order, as JS does for string keys.
  `JSON.stringify` equality of two payloads, used by `findDuplicateAction`,
  is modelled by structural equality of `JsonValue`.
* `Set<string>` is modelled as a `List String` with add-if-absent insertion;
  `Map<string, Error>` as an association list with `Map.set` semantics
  (error text kept as a string).
* `Date.now()` and `uuidv7()` are effects; the corresponding values are
  passed to the embedded operations as explicit arguments.
* Persistence (`localStorage`), console logging, the performance monitor and
  the listener callbacks perform no queue-state mutation and are omitted.
-/

mutual
/-- A JSON-serializable JS value. -/
inductive JsonValue where
  | null : JsonValue
  | bool : Bool → JsonValue
  | num : Int → JsonValue
  | str : String → JsonValue
  | arr : JsonSeq → JsonValue
  | obj : JsonMembers → JsonValue
deriving DecidableEq, Repr

/-- The element list of a JSON array. -/
inductive JsonSeq where
  | nil : JsonSeq
  | cons : JsonValue → JsonSeq → JsonSeq
deriving DecidableEq, Repr

/-- The ordered field list of a JSON object. -/
inductive JsonMembers where
  | nil : JsonMembers
  | cons : String → JsonValue → JsonMembers → JsonMembers
deriving DecidableEq, Repr
end

/-- `typeof v === "object"` for a JSON value: true for `null`, arrays and
objects (JS quirk: `typeof null === "object"`). -/
def typeofObject : JsonValue → Bool
  | .null => true
  | .arr _ => true
  | .obj _ => true
  | _ => false

/-- Index/value pairs contributed by an array under JS object spread,
starting at index `i`. -/
def arrayMembers (i : Nat) : JsonSeq → JsonMembers
  | .nil => .nil
  | .cons v rest => .cons (toString i) v (arrayMembers (i + 1) rest)

/-- The own enumerable fields contributed by a value under JS object spread.
Plain objects contribute their fields, arrays their index/value pairs,
everything else (only `null` can reach the merge branch) contributes
nothing.  The JS reordering of integer-like keys ahead of string keys is not
modelled; no payload in the development mixes the two. -/
def spreadFields : JsonValue → JsonMembers
  | .obj fs => fs
  | .arr xs => arrayMembers 0 xs
  | _ => .nil

/-- JS property assignment on an ordered field list: an existing key keeps
its position and receives the new value, a new key is appended. -/
def setField : JsonMembers → String → JsonValue → JsonMembers
  | .nil, k, v => .cons k v .nil
  | .cons k' v' rest, k, v =>
      if k' = k then .cons k v rest else .cons k' v' (setField rest k v)

/-- Assign every field of `src` onto `acc`, left to right. -/
def assignFields (acc : JsonMembers) : JsonMembers → JsonMembers
  | .nil => acc
  | .cons k v rest => assignFields (setField acc k v) rest

/-- The JS object spread `{...a, ...b}` used by the `merge` conflict branch:
fields of `a` first, fields of `b` overriding/appended. -/
def spreadMerge (a b : JsonValue) : JsonValue :=
  .obj (assignFields (spreadFields a) (spreadFields b))

/-- `QueuedAction.priority`. -/
inductive Priority where
  | low : Priority
  | normal : Priority
  | high : Priority
  | critical : Priority
deriving DecidableEq, Repr

/-- The `priorityOrder` table of `sortQueueByPriority`:
`{ critical: 4, high: 3, normal: 2, low: 1 }`. -/
def priorityOrder : Priority → Nat
  | .critical => 4
  | .high => 3
  | .normal => 2
  | .low => 1

/-- `QueuedAction.type`. -/
inductive ActionType where
  | fluencyRecord : ActionType
  | sessionUpdate : ActionType
  | libraryAction : ActionType
  | convexMutation : ActionType
deriving DecidableEq, Repr

/-- `QueuedAction.conflictResolution`. -/
inductive ConflictResolution where
  | merge : ConflictResolution
  | overwrite : ConflictResolution
  | skip : ConflictResolution
  | manual : ConflictResolution
deriving DecidableEq, Repr

/-- The `QueuedAction` record of `queue.ts`. -/
structure QueuedAction where
  id : String
  type : ActionType
  action : String
  payload : JsonValue
  timestamp : Int
  retryCount : Nat
  maxRetries : Nat
  priority : Priority
  studentId : String
  dependencies : Option (List String)
  conflictResolution : ConflictResolution
deriving DecidableEq, Repr

/-- The argument of `enqueue`: a `QueuedAction` minus `id`, `timestamp` and
`retryCount` (`Omit<QueuedAction, "id" | "timestamp" | "retryCount">`). -/
structure EnqueueRequest where
  type : ActionType
  action : String
  payload : JsonValue
  maxRetries : Nat
  priority : Priority
  studentId : String
  dependencies : Option (List String)
  conflictResolution : ConflictResolution
deriving DecidableEq, Repr

/-- The mutable private state of `OfflineActionQueue`: the queue array, the
`processing` id set, the `completedActions` id set and the `failedActions`
id-to-error map. -/
structure QueueState where
  queue : List QueuedAction
  processing : List String
  completedActions : List String
  failedActions : List (String × String)
deriving DecidableEq, Repr

/-- The state of a freshly constructed queue (empty storage). -/
def initialState : QueueState :=
  { queue := [], processing := [], completedActions := [], failedActions := [] }

/-- `Set.add`: append if absent. -/
def setInsert (s : List String) (x : String) : List String :=
  if s.contains x then s else s ++ [x]

/-- `Map.set`: update in place if the key exists, append otherwise. -/
def mapSet (m : List (String × String)) (k v : String) : List (String × String) :=
  if m.any (fun p => p.1 == k) then
    m.map (fun p => if p.1 == k then (k, v) else p)
  else m ++ [(k, v)]

/-- The key list of the `failedActions` map. -/
def failedKeys (st : QueueState) : List String :=
  st.failedActions.map (fun p => p.1)

/-- Replace the first element satisfying `p` — the JS pattern of mutating the
object returned by `Array.prototype.find`. -/
def modifyFirst (p : QueuedAction → Bool) (f : QueuedAction → QueuedAction) :
    List QueuedAction → List QueuedAction
  | [] => []
  | a :: rest => if p a then f a :: rest else a :: modifyFirst p f rest

/-! ### Network manager (`src/lib/performance/network.ts`) -/

/-- `NetworkInformation.effectiveType`. -/
inductive EffectiveType where
  | slow2g : EffectiveType
  | twoG : EffectiveType
  | threeG : EffectiveType
  | fourG : EffectiveType
deriving DecidableEq, Repr

/-- `ConnectionInfo.type`. -/
inductive ConnType where
  | ethernet : ConnType
  | wifi : ConnType
  | cellular : ConnType
  | unknown : ConnType
deriving DecidableEq, Repr

/-- `NetworkProfile.cacheStrategy`. -/
inductive CacheStrategy where
  | aggressive : CacheStrategy
  | conservative : CacheStrategy
  | minimal : CacheStrategy
deriving DecidableEq, Repr

/-- The `ConnectionInfo` snapshot the network manager reports. -/
structure ConnectionInfo where
  type : ConnType
  effectiveType : EffectiveType
  downlink : ℚ
  rtt : ℚ
  saveData : Bool
  isOnline : Bool
deriving DecidableEq, Repr

/-- A `NetworkProfile` from `setupProfiles`. -/
structure NetworkProfile where
  name : String
  maxBatchSize : Nat
  syncInterval : Nat
  enableBackgroundSync : Bool
  enablePrefetching : Bool
  enableOptimisticUpdates : Bool
  cacheStrategy : CacheStrategy
deriving DecidableEq, Repr

/-- The four online entries of the `profiles` table set up by
`NetworkManager.setupProfiles`, keyed by effective connection type. -/
def profiles : EffectiveType → NetworkProfile
  | .slow2g =>
    { name := "Slow 2G", maxBatchSize := 5, syncInterval := 60000,
      enableBackgroundSync := false, enablePrefetching := false,
      enableOptimisticUpdates := false, cacheStrategy := .minimal }
  | .twoG =>
    { name := "2G", maxBatchSize := 10, syncInterval := 45000,
      enableBackgroundSync := false, enablePrefetching := false,
      enableOptimisticUpdates := true, cacheStrategy := .conservative }
  | .threeG =>
    { name := "3G", maxBatchSize := 25, syncInterval := 15000,
      enableBackgroundSync := true, enablePrefetching := true,
      enableOptimisticUpdates := true, cacheStrategy := .conservative }
  | .fourG =>
    { name := "4G", maxBatchSize := 100, syncInterval := 5000,
      enableBackgroundSync := true, enablePrefetching := true,
      enableOptimisticUpdates := true, cacheStrategy := .aggressive }

/-- The `offline` entry of the `profiles` table. -/
def offlineProfile : NetworkProfile :=
  { name := "Offline", maxBatchSize := 0, syncInterval := 0,
    enableBackgroundSync := false, enablePrefetching := false,
    enableOptimisticUpdates := true, cacheStrategy := .minimal }

/-- `NetworkManager.getCurrentProfile`: the offline profile when offline,
otherwise the profile for the reported effective type (the `?? "4g"`
fallback is unreachable since `effectiveType` is total here). -/
def getCurrentProfile (conn : ConnectionInfo) : NetworkProfile :=
  if !conn.isOnline then offlineProfile else profiles conn.effectiveType

/-- The record returned by `NetworkManager.getAdaptiveConfig`. -/
structure AdaptiveConfig where
  batchSize : Nat
  syncInterval : Nat
  enableRealTime : Bool
  enableOptimisticUI : Bool
  cacheStrategy : CacheStrategy
deriving DecidableEq, Repr

/-- `NetworkManager.getAdaptiveConfig`. -/
def getAdaptiveConfig (conn : ConnectionInfo) : AdaptiveConfig :=
  let profile := getCurrentProfile conn
  { batchSize := profile.maxBatchSize,
    syncInterval := profile.syncInterval,
    enableRealTime := profile.enableBackgroundSync && conn.isOnline,
    enableOptimisticUI := profile.enableOptimisticUpdates,
    cacheStrategy := profile.cacheStrategy }

/-! ### Queue operations (`src/lib/offline/queue.ts`) -/

/-- The `QueuedAction` built at the top of `enqueue` from the request, the
generated uuid and `Date.now()`. -/
def mkQueuedAction (req : EnqueueRequest) (newId : String) (now : Int) : QueuedAction :=
  { id := newId, type := req.type, action := req.action, payload := req.payload,
    timestamp := now, retryCount := 0, maxRetries := req.maxRetries,
    priority := req.priority, studentId := req.studentId,
    dependencies := req.dependencies, conflictResolution := req.conflictResolution }

/-- The structural-duplicate test of `findDuplicateAction`: same `type`,
`action` and `studentId`, and `JSON.stringify`-equal payloads. -/
def isDuplicateOf (existing a : QueuedAction) : Bool :=
  decide (existing.type = a.type ∧ existing.action = a.action ∧
    existing.studentId = a.studentId ∧ existing.payload = a.payload)

/-- `OfflineActionQueue.findDuplicateAction` (first match or none). -/
def findDuplicateAction (q : List QueuedAction) (a : QueuedAction) : Option QueuedAction :=
  q.find? (fun existing => isDuplicateOf existing a)

/-- The ordering that the comparator of `sortQueueByPriority` sorts by:
`a` may stay before `b` iff `a` has strictly greater priority weight, or
equal weight and an earlier-or-equal timestamp. -/
def queueLE (a b : QueuedAction) : Prop :=
  priorityOrder b.priority < priorityOrder a.priority ∨
    (priorityOrder a.priority = priorityOrder b.priority ∧ a.timestamp ≤ b.timestamp)

instance : DecidableRel queueLE := fun a b => by
  unfold queueLE; infer_instance

instance : IsTotal QueuedAction queueLE where
  total a b := by
    unfold queueLE
    rcases Nat.lt_trichotomy (priorityOrder a.priority) (priorityOrder b.priority) with h | h | h
    · exact Or.inr (Or.inl h)
    · rcases Int.le_total a.timestamp b.timestamp with ht | ht
      · exact Or.inl (Or.inr ⟨h, ht⟩)
      · exact Or.inr (Or.inr ⟨h.symm, ht⟩)
    · exact Or.inl (Or.inl h)

instance : IsTrans QueuedAction queueLE where
  trans a b c hab hbc := by
    unfold queueLE at *
    rcases hab with h1 | ⟨h1, t1⟩ <;> rcases hbc with h2 | ⟨h2, t2⟩
    · exact Or.inl (h2.trans h1)
    · exact Or.inl (h2 ▸ h1)
    · exact Or.inl (h1 ▸ h2)
    · exact Or.inr ⟨h1.trans h2, t1.trans t2⟩

/-- `OfflineActionQueue.sortQueueByPriority`: a stable sort by priority
weight descending, then timestamp ascending (`Array.prototype.sort` is
stable, modelled by insertion sort over `queueLE`). -/
def sortQueueByPriority (q : List QueuedAction) : List QueuedAction :=
  q.insertionSort queueLE

/-- `OfflineActionQueue.handleDuplicate`.  `existing` is the record object
returned by `findDuplicateAction` (in JS it is mutated through the alias
into the queue array, modelled by `modifyFirst` on the duplicate
predicate).  The `merge` branch with a non-object payload has NO own exit:
control falls through the `case "manual":` label, so a fresh record is
pushed and the pre-conflict id is returned.  The manual push regenerates
the id and timestamp (`uuidv7()` / `Date.now()`), passed in as `manualId` /
`manualNow`. -/
def handleDuplicate (st : QueueState) (existing newAction : QueuedAction)
    (manualId : String) (manualNow : Int) : String × QueueState :=
  let manualPush : String × QueueState :=
    (newAction.id,
     { st with queue :=
        st.queue ++ [{ newAction with id := manualId, timestamp := manualNow, retryCount := 0 }] })
  match newAction.conflictResolution with
  | .skip => (existing.id, st)
  | .overwrite =>
    let overwritten := fun (e : QueuedAction) =>
      { e with payload := newAction.payload, timestamp := newAction.timestamp }
    (existing.id,
     { st with queue := modifyFirst (fun e => isDuplicateOf e newAction) overwritten st.queue })
  | .merge =>
    if typeofObject existing.payload && typeofObject newAction.payload then
      let merged := fun (e : QueuedAction) =>
        { e with payload := spreadMerge e.payload newAction.payload,
                 timestamp := max e.timestamp newAction.timestamp }
      (existing.id,
       { st with queue := modifyFirst (fun e => isDuplicateOf e newAction) merged st.queue })
    else manualPush
  | .manual => manualPush

/-- `OfflineActionQueue.enqueue`.  `newId`/`now` stand for the `uuidv7()` and
`Date.now()` of the initial record; `manualId`/`manualNow` for the second
generation inside the manual push of `handleDuplicate`. -/
def enqueue (st : QueueState) (req : EnqueueRequest) (newId : String) (now : Int)
    (manualId : String) (manualNow : Int) : String × QueueState :=
  let queuedAction := mkQueuedAction req newId now
  match findDuplicateAction st.queue queuedAction with
  | some existing => handleDuplicate st existing queuedAction manualId manualNow
  | none =>
    (queuedAction.id, { st with queue := sortQueueByPriority (st.queue ++ [queuedAction]) })

/-- `OfflineActionQueue.dequeue`: remove the record by id (if present) and
drop the id from the `processing` set.  `failedActions` is left untouched. -/
def dequeue (st : QueueState) (actionId : String) : Bool × QueueState :=
  match st.queue.findIdx? (fun a => a.id == actionId) with
  | none => (false, st)
  | some i =>
    (true, { st with queue := st.queue.eraseIdx i, processing := st.processing.erase actionId })

/-- One character of `JSON.stringify` string escaping (quote and backslash;
JSON control-character escapes are not modelled, no payload uses them). -/
def escapeJsonChar (c : Char) : String :=
  if c = '"' then "\\\"" else if c = '\\' then "\\\\" else String.singleton c

/-- `JSON.stringify` of a string: quoted and escaped. -/
def jsonQuote (s : String) : String :=
  "\"" ++ String.join (s.toList.map escapeJsonChar) ++ "\""

mutual
/-- `JSON.stringify` of a JSON value. -/
def jsonString : JsonValue → String
  | .null => "null"
  | .bool b => cond b "true" "false"
  | .num n => toString n
  | .str s => jsonQuote s
  | .arr xs => "[" ++ jsonSeqString xs ++ "]"
  | .obj fs => "\x7b" ++ jsonMembersString fs ++ "\x7d"

/-- Comma-joined stringification of array elements. -/
def jsonSeqString : JsonSeq → String
  | .nil => ""
  | .cons v .nil => jsonString v
  | .cons v rest => jsonString v ++ "," ++ jsonSeqString rest

/-- Comma-joined stringification of object fields. -/
def jsonMembersString : JsonMembers → String
  | .nil => ""
  | .cons k v .nil => jsonQuote k ++ ":" ++ jsonString v
  | .cons k v rest => jsonQuote k ++ ":" ++ jsonString v ++ "," ++ jsonMembersString rest
end

/-- The string literal of an action type tag. -/
def actionTypeString : ActionType → String
  | .fluencyRecord => "fluency-record"
  | .sessionUpdate => "session-update"
  | .libraryAction => "library-action"
  | .convexMutation => "convex-mutation"

/-- The string literal of a priority. -/
def priorityString : Priority → String
  | .low => "low"
  | .normal => "normal"
  | .high => "high"
  | .critical => "critical"

/-- The string literal of a conflict-resolution policy. -/
def conflictResolutionString : ConflictResolution → String
  | .merge => "merge"
  | .overwrite => "overwrite"
  | .skip => "skip"
  | .manual => "manual"

/-- A list of strings as a JSON array. -/
def stringSeq : List String → JsonSeq
  | [] => .nil
  | s :: rest => .cons (.str s) (stringSeq rest)

/-- A `QueuedAction` as the JSON value `JSON.stringify` serializes (an
`undefined` `dependencies` field is omitted, as `JSON.stringify` does; the
runtime key order varies with the request literal, which leaves the
serialized LENGTH — all `estimateQueueSize` consumes — unchanged). -/
def actionJsonValue (a : QueuedAction) : JsonValue :=
  let tail : JsonMembers :=
    match a.dependencies with
    | none => .cons "conflictResolution" (.str (conflictResolutionString a.conflictResolution)) .nil
    | some deps =>
      .cons "dependencies" (.arr (stringSeq deps))
        (.cons "conflictResolution" (.str (conflictResolutionString a.conflictResolution)) .nil)
  .obj (.cons "id" (.str a.id)
    (.cons "type" (.str (actionTypeString a.type))
      (.cons "action" (.str a.action)
        (.cons "payload" a.payload
          (.cons "timestamp" (.num a.timestamp)
            (.cons "retryCount" (.num a.retryCount)
              (.cons "maxRetries" (.num a.maxRetries)
                (.cons "priority" (.str (priorityString a.priority))
                  (.cons "studentId" (.str a.studentId) tail)))))))))

/-- `OfflineActionQueue.estimateQueueSize`: twice the serialized length of
each record, summed (rough UTF-16 byte estimate). -/
def estimateQueueSize (q : List QueuedAction) : Nat :=
  q.foldl (fun size action => size + (jsonString (actionJsonValue action)).length * 2) 0

/-- The status argument of `getActions`. -/
inductive ActionStatus where
  | pending : ActionStatus
  | processing : ActionStatus
  | failed : ActionStatus
  | completed : ActionStatus
deriving DecidableEq, Repr

/-- The record returned by `getStats`. -/
structure QueueStats where
  pending : Nat
  processing : Nat
  failed : Nat
  completed : Nat
  totalSize : Nat
deriving DecidableEq, Repr

/-- `OfflineActionQueue.getStats`. -/
def getStats (st : QueueState) : QueueStats :=
  { pending := (st.queue.filter (fun a => !st.processing.contains a.id)).length,
    processing := st.processing.length,
    failed := st.failedActions.length,
    completed := st.completedActions.length,
    totalSize := estimateQueueSize st.queue }

/-- `OfflineActionQueue.getActions`. -/
def getActions (st : QueueState) (status : Option ActionStatus) : List QueuedAction :=
  match status with
  | some .pending => st.queue.filter (fun a => !st.processing.contains a.id)
  | some .processing => st.queue.filter (fun a => st.processing.contains a.id)
  | some .failed => st.queue.filter (fun a => st.failedActions.any (fun p => p.1 == a.id))
  | some .completed => []
  | none => st.queue

/-- `OfflineActionQueue.clear`.  With a predicate only the queue array is
filtered — the `processing` and `failedActions` collections keep any ids of
removed records; without one, everything is reset. -/
def clear (st : QueueState) (filter : Option (QueuedAction → Bool)) : Nat × QueueState :=
  let initialLength := st.queue.length
  match filter with
  | some f =>
    let st' := { st with queue := st.queue.filter (fun action => !f action) }
    (initialLength - st'.queue.length, st')
  | none =>
    (initialLength,
     { queue := [], processing := [], completedActions := [], failedActions := [] })

/-- The body of the `forEach` in `retryFailed`: if the failed id still names
a queue record, reset that record's `retryCount` and delete the map entry;
otherwise do nothing (the map entry survives). -/
def resetAndClearFailed (acc : QueueState) (actionId : String) : QueueState :=
  if acc.queue.any (fun a => a.id == actionId) then
    { acc with
        queue := modifyFirst (fun a => a.id == actionId)
          (fun a => { a with retryCount := 0 }) acc.queue,
        failedActions := acc.failedActions.filter (fun p => !(p.1 == actionId)) }
  else acc

/-- `OfflineActionQueue.retryFailed`: iterate over a snapshot of the failed
ids (`Array.from(this.failedActions.keys())`). -/
def retryFailed (st : QueueState) : QueueState :=
  (failedKeys st).foldl resetAndClearFailed st

/-- The online branch of `setupNetworkListeners`'s `onOnlineChange`
callback: a network offline→online transition runs `retryFailed` (the
offline branch only logs). -/
def handleOnline (st : QueueState) : QueueState :=
  retryFailed st

/-- `OfflineActionQueue.areDependenciesMet`: every dependency is completed
or no longer present in the queue. -/
def areDependenciesMet (st : QueueState) (action : QueuedAction) : Bool :=
  match action.dependencies with
  | none => true
  | some deps => deps.all (fun depId =>
      st.completedActions.contains depId || !(st.queue.any (fun a => a.id == depId)))

/-- The `availableActions` filter of `processQueue`: not processing, not in
the failed map, dependencies met. -/
def availableActions (st : QueueState) : List QueuedAction :=
  st.queue.filter (fun action =>
    !st.processing.contains action.id &&
    !(st.failedActions.any (fun p => p.1 == action.id)) &&
    areDependenciesMet st action)

/-- `Math.min(config.batchSize / 10, 5)` — the `maxConcurrent` bound of
`processQueue`, an exact rational (JS number division). -/
def maxConcurrent (conn : ConnectionInfo) : ℚ :=
  min (((getAdaptiveConfig conn).batchSize : ℚ) / 10) 5

/-- JS `ToIntegerOrInfinity`: truncation toward zero. -/
def jsTrunc (x : ℚ) : Int :=
  if 0 ≤ x then ⌊x⌋ else ⌈x⌉

/-- `Array.prototype.slice(0, endIdx)` with a (possibly fractional or
negative) end index: truncate toward zero, count negatives from the end. -/
def sliceTo (l : List QueuedAction) (endIdx : ℚ) : List QueuedAction :=
  let e := jsTrunc endIdx
  let k : Nat := if e < 0 then ((l.length : Int) + e).toNat else e.toNat
  l.take k

/-- The `actionsToProcess` selection of `processQueue`:
`availableActions.slice(0, maxConcurrent - processing.size).filter(() =>
processing.size < maxConcurrent)` — the filter predicate ignores its
argument and reads the (unchanged, synchronous) `processing` size. -/
def selectActionsForTick (st : QueueState) (conn : ConnectionInfo) : List QueuedAction :=
  let mc := maxConcurrent conn
  (sliceTo (availableActions st) (mc - (st.processing.length : ℚ))).filter
    (fun _ => decide ((st.processing.length : ℚ) < mc))

/-- The synchronous prefix of one `processQueue` tick: a no-op while the
network is offline, otherwise the selected actions enter the `processing`
set (their executor calls then run asynchronously). -/
def processQueueTick (st : QueueState) (conn : ConnectionInfo) : QueueState × List QueuedAction :=
  if !conn.isOnline then (st, [])
  else
    let actionsToProcess := selectActionsForTick st conn
    ({ st with processing := actionsToProcess.foldl (fun p a => setInsert p a.id) st.processing },
     actionsToProcess)

/-- `n` consecutive scheduler ticks under a fixed connection state. -/
def iterTick (conn : ConnectionInfo) : Nat → QueueState → QueueState
  | 0, st => st
  | n + 1, st => iterTick conn n (processQueueTick st conn).1

/-- Increment `retryCount` of the first record with the given id (the alias
mutation `action.retryCount++` of `handleActionError`), reporting the new
count and the record's `maxRetries`. -/
def bumpRetry : List QueuedAction → String → List QueuedAction × Option (Nat × Nat)
  | [], _ => ([], none)
  | a :: rest, actionId =>
    if a.id == actionId then
      ({ a with retryCount := a.retryCount + 1 } :: rest, some (a.retryCount + 1, a.maxRetries))
    else
      let r := bumpRetry rest actionId
      (a :: r.1, r.2)

/-- `OfflineActionQueue.handleActionError`: drop the id from `processing`,
increment the record's `retryCount`; at or past `maxRetries` park the id in
the failed map, otherwise compute the informational exponential backoff
`Math.min(1000 * Math.pow(2, retryCount), 30000)` (returned here as the
optional second component; the source only schedules a log line with it).
When the record has already left the queue the JS code mutates the
processor's dangling alias, whose counters are the `action` snapshot. -/
def handleActionError (st : QueueState) (action : QueuedAction) (err : String) :
    QueueState × Option Nat :=
  let stP := { st with processing := st.processing.erase action.id }
  let bumped := bumpRetry stP.queue action.id
  let stQ := { stP with queue := bumped.1 }
  match bumped.2 with
  | some rcm =>
    if rcm.2 ≤ rcm.1 then
      ({ stQ with failedActions := mapSet stQ.failedActions action.id err }, none)
    else (stQ, some (min (1000 * 2 ^ rcm.1) 30000))
  | none =>
    let rc := action.retryCount + 1
    if action.maxRetries ≤ rc then
      ({ stQ with failedActions := mapSet stQ.failedActions action.id err }, none)
    else (stQ, some (min (1000 * 2 ^ rc) 30000))

/-- `OfflineActionQueue.completeAction`: dequeue, remember the id as
completed, drop it from `processing`. -/
def completeAction (st : QueueState) (actionId : String) : QueueState :=
  let d := dequeue st actionId
  { d.2 with completedActions := setInsert d.2.completedActions actionId,
             processing := d.2.processing.erase actionId }

/-- `n` consecutive executor failures of the record `r` (each dispatch ends
in `handleActionError`; `r` is the processor's alias of the record). -/
def iterFail (r : QueuedAction) (err : String) : Nat → QueueState → QueueState
  | 0, st => st
  | n + 1, st => iterFail r err n (handleActionError st r err).1

/-! ### Concrete fixtures for witnesses and counterexamples -/

/-- A sample enqueue request (the shape `queueFluencyRecord` submits),
parametrized by payload, priority, policy and retry ceiling. -/
def exReq (p : JsonValue) (pr : Priority) (cr : ConflictResolution) (m : Nat) : EnqueueRequest :=
  { type := .fluencyRecord, action := "addFluencyRecord", payload := p, maxRetries := m,
    priority := pr, studentId := "s", dependencies := none, conflictResolution := cr }

/-- One record `A` enqueued into a fresh queue. -/
def exStA : QueueState := (enqueue initialState (exReq (.num 1) .normal .skip 3) "A" 1 "xA" 1).2

/-- Records `A` and `B` enqueued into a fresh queue. -/
def exStAB : QueueState := (enqueue exStA (exReq (.num 2) .normal .skip 3) "B" 2 "xB" 2).2

/-- An online 2g connection snapshot. -/
def exConn2g : ConnectionInfo :=
  { type := .cellular, effectiveType := .twoG, downlink := 10, rtt := 100,
    saveData := false, isOnline := true }

/-- An online slow-2g connection snapshot. -/
def exConnSlow2g : ConnectionInfo :=
  { type := .cellular, effectiveType := .slow2g, downlink := 1, rtt := 400,
    saveData := false, isOnline := true }

/-- An offline connection snapshot. -/
def exConnOffline : ConnectionInfo :=
  { type := .unknown, effectiveType := .fourG, downlink := 0, rtt := 0,
    saveData := false, isOnline := false }

/-! ### C7 — offline ticks are no-ops -/

/-- C7: while the network status provider reports offline, a scheduler tick
dispatches nothing and any number of consecutive ticks leaves the queue
state — in particular the pending and processing counts of `getStats` —
unchanged. -/
theorem c7_offline_noop (st : QueueState) (conn : ConnectionInfo)
    (h : conn.isOnline = false) (n : Nat) :
    iterTick conn n st = st ∧
    (getStats (iterTick conn n st)).pending = (getStats st).pending ∧
    (getStats (iterTick conn n st)).processing = (getStats st).processing ∧
    (processQueueTick st conn).2 = [] := by
  have hstep : ∀ s : QueueState, processQueueTick s conn = (s, []) := by
    intro s; simp [processQueueTick, h]
  have hiter : ∀ (m : Nat) (s : QueueState), iterTick conn m s = s := by
    intro m
    induction m with
    | zero => intro s; rfl
    | succ k ih => intro s; rw [iterTick, hstep]; exact ih s
  exact ⟨hiter n st, by rw [hiter], by rw [hiter], by rw [hstep]⟩

/-- C7 witness: three offline ticks on a concrete two-record queue. -/
theorem c7_offline_noop_witness :
    exConnOffline.isOnline = false ∧ iterTick exConnOffline 3 exStAB = exStAB :=
  ⟨rfl, (c7_offline_noop exStAB exConnOffline rfl 3).1⟩

/-! ### Closed counterexamples and code-bug evaluations -/

/-- The record of a request with `maxRetries = 0`. -/
def exRecZ : QueuedAction := mkQueuedAction (exReq (.num 7) .normal .skip 0) "Z" 1

/-- A queue holding just that record. -/
def exStZ : QueueState := (enqueue initialState (exReq (.num 7) .normal .skip 0) "Z" 1 "x" 1).2

/-- The state after its one (always-failing) dispatch fails. -/
def exStZ1 : QueueState := (handleActionError exStZ exRecZ "boom").1

/-- C1 counterexample: for a record with `maxRetries = 0` the first failure
parks it as failed with `retryCount = 1 ≠ 0 = maxRetries` (it never failed
while `retryCount = maxRetries = 0`), and the still-pending record carries
`retryCount` strictly above its ceiling. -/
theorem c1_retry_ceiling_counterexample :
    exRecZ.maxRetries = 0 ∧
    "Z" ∉ failedKeys exStZ ∧
    "Z" ∈ failedKeys exStZ1 ∧
    (getActions exStZ1 (some .pending)).map (fun a => a.retryCount) = [1] ∧
    (1 : Nat) ≠ 0 := by decide

/-- The duplicate-`merge` enqueue of a non-object (numeric) payload. -/
def exStM : QueueState := (enqueue initialState (exReq (.num 42) .normal .merge 3) "A" 1 "x" 1).2

/-- Its result: returned id and post-state. -/
def exC2 : String × QueueState := enqueue exStM (exReq (.num 42) .normal .merge 3) "B" 2 "C" 3

/-- C2 (code-bug evaluation): on a structural duplicate under `merge` with a
non-object payload, the fall-through lands in the `manual` branch — the
existing record keeps payload and timestamp, a second record is appended
under the regenerated id, the queue grows, and the returned id names no
record — instead of the overwrite semantics the source's own fall-through
comment (and the spec) promise. -/
theorem c2_merge_fallback_code_bug :
    exC2.1 = "B" ∧
    exC2.2.queue.map (fun a => a.id) = ["A", "C"] ∧
    exC2.2.queue.length = exStM.queue.length + 1 ∧
    exC2.2.queue.map (fun a => a.timestamp) = [1, 3] ∧
    exC2.2.queue.any (fun a => a.id == "B") = false := by decide

/-- C3 counterexample: on an online slow-2g connection the computed
concurrency cap is `5 / 10 = 1/2`, outside the claimed range `[1, 5]`. -/
theorem c3_concurrency_cap_counterexample :
    exConnSlow2g.isOnline = true ∧
    maxConcurrent exConnSlow2g = 1 / 2 ∧
    ¬ (1 ≤ maxConcurrent exConnSlow2g) := by
  refine ⟨rfl, ?_, ?_⟩ <;>
    norm_num [maxConcurrent, getAdaptiveConfig, getCurrentProfile, profiles, exConnSlow2g]

/-- The record of a three-retry request. -/
def exRecG : QueuedAction := mkQueuedAction (exReq (.num 7) .normal .skip 3) "G" 1

/-- A queue holding just that record. -/
def exStG : QueueState := (enqueue initialState (exReq (.num 7) .normal .skip 3) "G" 1 "x" 1).2

/-- C4 counterexample: the first failure (incremented `retryCount = 1`,
still below `maxRetries = 3`) computes a backoff of
`min(1000 * 2^1, 30000) = 2000`, not the claimed
`min(1000 * 2^(1-1), 30000) = 1000`. -/
theorem c4_backoff_counterexample :
    (handleActionError exStG exRecG "e").2 = some 2000 ∧
    min (1000 * 2 ^ (1 - 1)) 30000 = 1000 ∧
    (2000 : Nat) ≠ 1000 := by decide

/-- The record of a one-retry request. -/
def exRecF : QueuedAction := mkQueuedAction (exReq (.num 7) .normal .skip 1) "F" 1

/-- A queue holding just that record. -/
def exStF : QueueState := (enqueue initialState (exReq (.num 7) .normal .skip 1) "F" 1 "x" 1).2

/-- The state after its dispatch fails once, reaching the retry ceiling. -/
def exStF1 : QueueState := (handleActionError exStF exRecF "err").1

/-- The state after the failed record is then dequeued (the failed-map entry
survives `dequeue`). -/
def exStF2 : QueueState := (dequeue exStF1 "F").2

/-- The state after a subsequent offline→online transition. -/
def exStF3 : QueueState := handleOnline exStF2

/-- C5 counterexample: the offline→online transition does not remove the
failed-map entry of a record that is no longer in the queue, so
`getStats().failed` is 1, not 0. -/
theorem c5_online_clears_failed_counterexample :
    "F" ∈ failedKeys exStF2 ∧ (getStats exStF3).failed = 1 ∧ (1 : Nat) ≠ 0 := by decide

/-- A duplicate-`overwrite` enqueue against the two-record queue: the
existing record's timestamp is rewritten in place to the later `Date.now()`
without a re-sort. -/
def exStS : QueueState := (enqueue exStAB (exReq (.num 1) .normal .overwrite 3) "C" 3 "z" 3).2

/-- C6 counterexample: after a public `enqueue` under the `overwrite`
policy, `getActions()` is NOT sorted by priority weight descending then
timestamp ascending — the overwritten record (timestamp 3) sits ahead of an
equal-priority record with timestamp 2. -/
theorem c6_priority_order_counterexample :
    ¬ List.Sorted queueLE (getActions exStS none) := by decide

/-- Evaluation helper: with an empty `processing` set and an integral
concurrency cap `k > 0`, a tick selects the first `k` available actions. -/
theorem selectActionsForTick_empty_processing (st : QueueState) (conn : ConnectionInfo)
    (k : Nat) (hp : st.processing = []) (hk : 0 < k) (hmc : maxConcurrent conn = (k : ℚ)) :
    selectActionsForTick st conn = (availableActions st).take k := by
  unfold selectActionsForTick sliceTo jsTrunc
  rw [hp, hmc]
  dsimp only
  have h0 : ((List.length ([] : List String) : ℚ)) = 0 := by norm_num
  rw [h0]
  have h1 : (k : ℚ) - 0 = (k : ℚ) := by ring
  rw [h1]
  have h2 : (0 : ℚ) ≤ (k : ℚ) := by positivity
  rw [if_pos h2]
  rw [Int.floor_natCast k]
  have h4 : ¬ ((k : Int) < 0) := by omega
  rw [if_neg h4]
  rw [Int.toNat_natCast k]
  have h6 : decide ((0 : ℚ) < (k : ℚ)) = true := by
    simp only [decide_eq_true_eq]
    exact_mod_cast hk
  rw [h6]
  simp

/-- The two-record queue with record `A` in `processing` (reached by one
online-2g scheduler tick, as the counterexample proves). -/
def exSt9a : QueueState := { exStAB with processing := ["A"] }

/-- The state after a filtered `clear` then removes the in-flight record
`A` from the queue array only. -/
def exSt9 : QueueState := (clear exSt9a (some (fun a => a.id == "A"))).2

/-- C9 counterexample: one online-2g tick puts record `A` in `processing`;
a filtered `clear` then removes `A` from the queue array only, leaving its
id in `processing`, so `getStats().pending + getStats().processing = 2`
while the queue holds a single record. -/
theorem c9_failed_in_queue_counterexample :
    (processQueueTick exStAB exConn2g).1 = exSt9a ∧
    (getStats exSt9).pending + (getStats exSt9).processing = 2 ∧
    exSt9.queue.length = 1 ∧ (2 : Nat) ≠ 1 := by
  refine ⟨?_, by decide, by decide, by decide⟩
  have hmc : maxConcurrent exConn2g = ((1 : Nat) : ℚ) := by
    norm_num [maxConcurrent, getAdaptiveConfig, getCurrentProfile, profiles, exConn2g]
  have hsel : selectActionsForTick exStAB exConn2g = (availableActions exStAB).take 1 :=
    selectActionsForTick_empty_processing exStAB exConn2g 1 (by decide) (by decide) hmc
  have hon : exConn2g.isOnline = true := rfl
  rw [processQueueTick, hon]
  simp only [Bool.not_true, if_false]
  rw [hsel]
  decide

/-! ### Helper lemmas on `modifyFirst` -/

/-- `modifyFirst` preserves length. -/
theorem modifyFirst_length (p : QueuedAction → Bool) (f : QueuedAction → QueuedAction) :
    ∀ l : List QueuedAction, (modifyFirst p f l).length = l.length := by
  intro l
  induction l with
  | nil => rfl
  | cons a rest ih =>
    by_cases hpa : p a <;> simp [modifyFirst, hpa, ih]

/-- The record that `find?` returns is the one `modifyFirst` rewrites. -/
theorem find?_modifyFirst_mem (p : QueuedAction → Bool) (f : QueuedAction → QueuedAction) :
    ∀ (l : List QueuedAction) (e : QueuedAction), l.find? p = some e →
      f e ∈ modifyFirst p f l := by
  intro l
  induction l with
  | nil => intro e h; cases h
  | cons a rest ih =>
    intro e h
    by_cases hpa : p a
    · rw [List.find?_cons_of_pos _ hpa] at h
      cases h
      simp [modifyFirst, hpa]
    · rw [List.find?_cons_of_neg _ hpa] at h
      simp only [modifyFirst, hpa, if_false]
      exact List.mem_cons_of_mem a (ih e h)

/-! ### C10 — `manual` duplicates return a dangling id -/

/-- C10: enqueueing a structural duplicate under policy `manual` appends a
new record under the second generated id `manualId`, yet returns the id
generated before conflict handling, which names neither the inserted record
nor any record in the queue (uuid freshness is the stated hypothesis). -/
theorem c10_manual_duplicate (st : QueueState) (req : EnqueueRequest) (newId : String)
    (now : Int) (manualId : String) (manualNow : Int)
    (hcr : req.conflictResolution = .manual)
    (hdup : (findDuplicateAction st.queue (mkQueuedAction req newId now)).isSome = true)
    (hfresh : newId ∉ st.queue.map (fun a => a.id))
    (hne : newId ≠ manualId) :
    (enqueue st req newId now manualId manualNow).1 = newId ∧
    (enqueue st req newId now manualId manualNow).2.queue.map (fun a => a.id)
      = st.queue.map (fun a => a.id) ++ [manualId] ∧
    newId ∉ (enqueue st req newId now manualId manualNow).2.queue.map (fun a => a.id) ∧
    (enqueue st req newId now manualId manualNow).2.queue.length = st.queue.length + 1 ∧
    ∃ r ∈ (enqueue st req newId now manualId manualNow).2.queue,
      r.id = manualId ∧ r.payload = req.payload ∧ r.retryCount = 0 := by
  obtain ⟨e, he⟩ := Option.isSome_iff_exists.mp hdup
  unfold enqueue
  dsimp only
  rw [he]
  unfold handleDuplicate
  dsimp only [mkQueuedAction]
  rw [hcr]
  dsimp only
  refine ⟨rfl, ?_, ?_, ?_, ?_⟩
  · simp
  · simp [hfresh, hne]
  · simp
  · refine ⟨{ mkQueuedAction req newId now with id := manualId, timestamp := manualNow, retryCount := 0 }, ?_, rfl, rfl, rfl⟩
    simp [mkQueuedAction, hcr]

/-- C10 witness: a concrete `manual` duplicate against a one-record queue. -/
theorem c10_manual_duplicate_witness :
    (enqueue exStM (exReq (.num 42) .normal .manual 3) "B" 2 "C" 3).1 = "B" ∧
    (enqueue exStM (exReq (.num 42) .normal .manual 3) "B" 2 "C" 3).2.queue.map (fun a => a.id)
      = exStM.queue.map (fun a => a.id) ++ ["C"] ∧
    "B" ∉ (enqueue exStM (exReq (.num 42) .normal .manual 3) "B" 2 "C" 3).2.queue.map
      (fun a => a.id) ∧
    (enqueue exStM (exReq (.num 42) .normal .manual 3) "B" 2 "C" 3).2.queue.length
      = exStM.queue.length + 1 ∧
    ∃ r ∈ (enqueue exStM (exReq (.num 42) .normal .manual 3) "B" 2 "C" 3).2.queue,
      r.id = "C" ∧ r.payload = (exReq (.num 42) .normal .manual 3).payload ∧ r.retryCount = 0 :=
  c10_manual_duplicate exStM (exReq (.num 42) .normal .manual 3) "B" 2 "C" 3
    rfl (by decide) (by decide) (by decide)

/-! ### C8 — `merge` with object payloads -/

/-- C8: enqueueing a structural duplicate under policy `merge` when both
payloads are plain objects rewrites the existing record in place: its
payload becomes the JS-spread shallow merge (incoming keys win), its
timestamp the maximum of the two, the existing id is returned and the
queue length is unchanged; and the shallow merge of `{a:1}` with `{b:2}`
is `{a:1,b:2}`. -/
theorem c8_merge_objects (st : QueueState) (req : EnqueueRequest) (newId : String)
    (now : Int) (manualId : String) (manualNow : Int) (e : QueuedAction)
    (fse fsr : JsonMembers)
    (hcr : req.conflictResolution = .merge)
    (hdup : findDuplicateAction st.queue (mkQueuedAction req newId now) = some e)
    (hpe : e.payload = .obj fse)
    (hpr : req.payload = .obj fsr) :
    (enqueue st req newId now manualId manualNow).1 = e.id ∧
    (enqueue st req newId now manualId manualNow).2.queue
      = modifyFirst (fun x => isDuplicateOf x (mkQueuedAction req newId now))
          (fun x => { x with payload := spreadMerge x.payload req.payload,
                             timestamp := max x.timestamp now }) st.queue ∧
    (enqueue st req newId now manualId manualNow).2.queue.length = st.queue.length ∧
    (∃ r ∈ (enqueue st req newId now manualId manualNow).2.queue,
      r.id = e.id ∧ r.payload = spreadMerge e.payload req.payload ∧
      r.timestamp = max e.timestamp now) ∧
    spreadMerge (.obj (.cons "a" (.num 1) .nil)) (.obj (.cons "b" (.num 2) .nil))
      = .obj (.cons "a" (.num 1) (.cons "b" (.num 2) .nil)) := by
  have hfind : st.queue.find? (fun x => isDuplicateOf x (mkQueuedAction req newId now)) = some e :=
    hdup
  have hcond : (typeofObject e.payload && typeofObject req.payload) = true := by
    rw [hpe, hpr]; rfl
  unfold enqueue
  dsimp only
  rw [hdup]
  unfold handleDuplicate
  dsimp only [mkQueuedAction]
  rw [hcr]
  dsimp only
  rw [hcond]
  refine ⟨rfl, rfl, modifyFirst_length _ _ st.queue, ?_, by decide⟩
  refine ⟨{ e with payload := spreadMerge e.payload req.payload, timestamp := max e.timestamp now },
    ?_, rfl, rfl, rfl⟩
  exact find?_modifyFirst_mem _ _ st.queue e hfind

/-- A one-record queue whose record carries the object payload `{a:1}`. -/
def exStObj : QueueState :=
  (enqueue initialState (exReq (.obj (.cons "a" (.num 1) .nil)) .normal .merge 3) "A" 1 "x" 1).2

/-- The record of that request. -/
def exRecObj : QueuedAction :=
  mkQueuedAction (exReq (.obj (.cons "a" (.num 1) .nil)) .normal .merge 3) "A" 1

/-- C8 witness: a concrete duplicate `merge` enqueue against that queue. -/
theorem c8_merge_objects_witness :
    (enqueue exStObj (exReq (.obj (.cons "a" (.num 1) .nil)) .normal .merge 3) "B" 5 "C" 5).1
      = exRecObj.id ∧
    (enqueue exStObj (exReq (.obj (.cons "a" (.num 1) .nil)) .normal .merge 3) "B" 5 "C" 5).2.queue
      = modifyFirst
          (fun x => isDuplicateOf x
            (mkQueuedAction (exReq (.obj (.cons "a" (.num 1) .nil)) .normal .merge 3) "B" 5))
          (fun x => { x with
            payload := spreadMerge x.payload (exReq (.obj (.cons "a" (.num 1) .nil)) .normal .merge 3).payload,
            timestamp := max x.timestamp 5 }) exStObj.queue ∧
    (enqueue exStObj (exReq (.obj (.cons "a" (.num 1) .nil)) .normal .merge 3) "B" 5 "C" 5).2.queue.length
      = exStObj.queue.length ∧
    (∃ r ∈ (enqueue exStObj (exReq (.obj (.cons "a" (.num 1) .nil)) .normal .merge 3) "B" 5 "C" 5).2.queue,
      r.id = exRecObj.id ∧
      r.payload = spreadMerge exRecObj.payload (exReq (.obj (.cons "a" (.num 1) .nil)) .normal .merge 3).payload ∧
      r.timestamp = max exRecObj.timestamp 5) ∧
    spreadMerge (.obj (.cons "a" (.num 1) .nil)) (.obj (.cons "b" (.num 2) .nil))
      = .obj (.cons "a" (.num 1) (.cons "b" (.num 2) .nil)) :=
  c8_merge_objects exStObj (exReq (.obj (.cons "a" (.num 1) .nil)) .normal .merge 3) "B" 5 "C" 5
    exRecObj (.cons "a" (.num 1) .nil) (.cons "a" (.num 1) .nil) rfl (by decide) (by decide) rfl

/-! ### C4 — exponential backoff -/

/-- `bumpRetry` rewrites exactly the record `find?` locates, and reports its
incremented counter and ceiling. -/
theorem bumpRetry_spec :
    ∀ (q : List QueuedAction) (actionId : String) (r' : QueuedAction),
      q.find? (fun x => x.id == actionId) = some r' →
      bumpRetry q actionId
        = (modifyFirst (fun x => x.id == actionId)
            (fun x => { x with retryCount := x.retryCount + 1 }) q,
           some (r'.retryCount + 1, r'.maxRetries)) := by
  intro q
  induction q with
  | nil => intro actionId r' h; cases h
  | cons a rest ih =>
    intro actionId r' h
    by_cases ha : (a.id == actionId) = true
    · simp only [List.find?, ha] at h
      cases h
      simp [bumpRetry, modifyFirst, ha]
    · have hb : (a.id == actionId) = false := by
        simp only [Bool.not_eq_true] at ha; exact ha
      simp only [List.find?, hb] at h
      simp only [bumpRetry, modifyFirst, hb, Bool.false_eq_true, if_false, ih actionId r' h]

/-- C4 (amended): when an executor failure leaves the incremented
`retryCount` still below `maxRetries`, the computed backoff delay is
`min(1000 * 2^retryCount, 30000)` for the incremented counter — one
doubling step above the claimed `min(1000 * 2^(retryCount-1), 30000)`. -/
theorem c4_backoff (st : QueueState) (a : QueuedAction) (err : String) (r' : QueuedAction)
    (hfind : st.queue.find? (fun x => x.id == a.id) = some r')
    (hlt : r'.retryCount + 1 < r'.maxRetries) :
    (handleActionError st a err).2 = some (min (1000 * 2 ^ (r'.retryCount + 1)) 30000) := by
  unfold handleActionError
  dsimp only
  rw [bumpRetry_spec st.queue a.id r' hfind]
  dsimp only
  rw [if_neg (by omega)]

/-- C4 witness: the first failure of a fresh record with `maxRetries = 3`
computes `min(1000 * 2^1, 30000)`. -/
theorem c4_backoff_witness :
    (handleActionError exStG exRecG "e").2
      = some (min (1000 * 2 ^ (exRecG.retryCount + 1)) 30000) :=
  c4_backoff exStG exRecG "e" exRecG (by decide) (by decide)

/-! ### C5 — offline→online and the failed map -/

/-- `modifyFirst` with an id-preserving rewrite preserves the id list. -/
theorem modifyFirst_map_id (p : QueuedAction → Bool) (f : QueuedAction → QueuedAction)
    (hf : ∀ a, (f a).id = a.id) :
    ∀ l : List QueuedAction, (modifyFirst p f l).map (fun a => a.id) = l.map (fun a => a.id) := by
  intro l
  induction l with
  | nil => rfl
  | cons a rest ih => by_cases hpa : p a <;> simp [modifyFirst, hpa, ih, hf]

/-- One `retryFailed` step preserves the queue's id list. -/
theorem resetAndClearFailed_queue_ids (acc : QueueState) (x : String) :
    (resetAndClearFailed acc x).queue.map (fun a => a.id) = acc.queue.map (fun a => a.id) := by
  unfold resetAndClearFailed
  by_cases h : acc.queue.any (fun a => a.id == x)
  · rw [if_pos h]
    exact modifyFirst_map_id (fun a => a.id == x)
      (fun a => { a with retryCount := 0 }) (fun a => rfl) acc.queue
  · rw [if_neg h]

/-- The whole `retryFailed` fold preserves the queue's id list. -/
theorem foldl_resetAndClearFailed_queue_ids :
    ∀ (L : List String) (acc : QueueState),
      ((L.foldl resetAndClearFailed acc).queue.map (fun a => a.id))
        = acc.queue.map (fun a => a.id) := by
  intro L
  induction L with
  | nil => intro acc; rfl
  | cons x L ih => intro acc; rw [List.foldl_cons, ih, resetAndClearFailed_queue_ids]

/-- Whether some record carries a given id only depends on the id list. -/
theorem anyId_eq_of_map_eq {l l' : List QueuedAction}
    (h : l.map (fun a => a.id) = l'.map (fun a => a.id)) (i : String) :
    l.any (fun a => a.id == i) = l'.any (fun a => a.id == i) := by
  have key : ∀ m : List QueuedAction,
      m.any (fun a => a.id == i) = (m.map (fun a => a.id)).any (fun s => s == i) := by
    intro m
    induction m with
    | nil => rfl
    | cons a rest ih => simp [List.any_cons, ih]
  rw [key l, key l', h]

/-- One `retryFailed` step never adds a failed key. -/
theorem resetAndClearFailed_failed_subset (acc : QueueState) (x i : String) :
    i ∈ failedKeys (resetAndClearFailed acc x) → i ∈ failedKeys acc := by
  unfold resetAndClearFailed failedKeys
  by_cases h : acc.queue.any (fun a => a.id == x)
  · rw [if_pos h]
    intro hm
    simp only [List.mem_map] at hm ⊢
    obtain ⟨p, hp, hq⟩ := hm
    exact ⟨p, (List.mem_filter.mp hp).1, hq⟩
  · rw [if_neg h]; exact fun hm => hm

/-- The whole `retryFailed` fold never adds a failed key. -/
theorem foldl_resetAndClearFailed_failed_subset :
    ∀ (L : List String) (acc : QueueState) (i : String),
      i ∈ failedKeys (L.foldl resetAndClearFailed acc) → i ∈ failedKeys acc := by
  intro L
  induction L with
  | nil => intro acc i h; exact h
  | cons x L ih =>
    intro acc i h
    rw [List.foldl_cons] at h
    exact resetAndClearFailed_failed_subset acc x i (ih _ i h)

/-- The step at `x` removes the key `x` when its record is in the queue. -/
theorem resetAndClearFailed_removes (acc : QueueState) (x : String)
    (h : acc.queue.any (fun a => a.id == x) = true) :
    x ∉ failedKeys (resetAndClearFailed acc x) := by
  unfold resetAndClearFailed failedKeys
  rw [if_pos h]
  intro hm
  simp only [List.mem_map] at hm
  obtain ⟨p, hp, hq⟩ := hm
  have hk := (List.mem_filter.mp hp).2
  rw [hq] at hk
  simp at hk

/-- The step at `x` keeps every other failed key. -/
theorem resetAndClearFailed_keeps (acc : QueueState) (x i : String) (hne : x ≠ i)
    (hid : i ∈ failedKeys acc) : i ∈ failedKeys (resetAndClearFailed acc x) := by
  unfold resetAndClearFailed failedKeys at *
  by_cases h : acc.queue.any (fun a => a.id == x)
  · rw [if_pos h]
    simp only [List.mem_map] at hid ⊢
    obtain ⟨p, hp, hq⟩ := hid
    refine ⟨p, List.mem_filter.mpr ⟨hp, ?_⟩, hq⟩
    rw [hq]
    simp [Ne.symm hne]
  · rw [if_neg h]; exact hid

/-- Over a snapshot containing `i`, the fold deletes the key `i` whenever a
queue record carries it. -/
theorem foldl_resetAndClearFailed_clears :
    ∀ (L : List String) (acc : QueueState) (i : String),
      i ∈ L → acc.queue.any (fun a => a.id == i) = true →
      i ∉ failedKeys (L.foldl resetAndClearFailed acc) := by
  intro L
  induction L with
  | nil => intro acc i h; cases h
  | cons x L ih =>
    intro acc i hmem hany
    rw [List.foldl_cons]
    by_cases hx : x = i
    · subst hx
      intro hc
      exact resetAndClearFailed_removes acc x hany
        (foldl_resetAndClearFailed_failed_subset L _ x hc)
    · have hmem' : i ∈ L := by
        rcases List.mem_cons.mp hmem with h | h
        · exact absurd h.symm hx
        · exact h
      have hany' : (resetAndClearFailed acc x).queue.any (fun a => a.id == i) = true := by
        rw [anyId_eq_of_map_eq (resetAndClearFailed_queue_ids acc x) i]; exact hany
      exact ih _ i hmem' hany'

/-- The fold keeps the key `i` whenever no queue record carries it. -/
theorem foldl_resetAndClearFailed_keeps :
    ∀ (L : List String) (acc : QueueState) (i : String),
      i ∈ failedKeys acc → acc.queue.any (fun a => a.id == i) = false →
      i ∈ failedKeys (L.foldl resetAndClearFailed acc) := by
  intro L
  induction L with
  | nil => intro acc i hid _; exact hid
  | cons x L ih =>
    intro acc i hid hany
    rw [List.foldl_cons]
    have hany' : (resetAndClearFailed acc x).queue.any (fun a => a.id == i) = false := by
      rw [anyId_eq_of_map_eq (resetAndClearFailed_queue_ids acc x) i]; exact hany
    by_cases hx : x = i
    · subst hx
      have hstep : resetAndClearFailed acc x = acc := by
        unfold resetAndClearFailed
        rw [if_neg (by rw [hany]; exact Bool.false_ne_true)]
      rw [hstep]
      exact ih acc x hid hany
    · exact ih _ i (resetAndClearFailed_keeps acc x i hx hid) hany'

/-- C5 (amended): the offline→online transition (`retryFailed`) removes
exactly the failed-map entries whose record is still in the queue — making
those records pass the failed-set eligibility filter again — while every
entry whose record has left the queue survives; the queue's id list is
unchanged. -/
theorem c5_online_clears_failed (st : QueueState) (i : String)
    (hid : i ∈ failedKeys st) :
    (st.queue.any (fun a => a.id == i) = true →
      i ∉ failedKeys (handleOnline st) ∧
      (handleOnline st).failedActions.any (fun p => p.1 == i) = false) ∧
    (st.queue.any (fun a => a.id == i) = false →
      i ∈ failedKeys (handleOnline st)) ∧
    (handleOnline st).queue.map (fun a => a.id) = st.queue.map (fun a => a.id) := by
  unfold handleOnline retryFailed
  refine ⟨fun h => ?_, fun h => foldl_resetAndClearFailed_keeps _ st i hid h,
    foldl_resetAndClearFailed_queue_ids _ st⟩
  have hnot := foldl_resetAndClearFailed_clears (failedKeys st) st i hid h
  refine ⟨hnot, ?_⟩
  rw [Bool.eq_false_iff]
  intro hc
  rw [List.any_eq_true] at hc
  obtain ⟨p, hp, hq⟩ := hc
  exact hnot (List.mem_map.mpr ⟨p, hp, by simpa using hq⟩)

/-- C5 witness: applied to a queue whose single record `F` has failed
(entry present, record present). -/
theorem c5_online_clears_failed_witness :
    "F" ∉ failedKeys (handleOnline exStF1) ∧
    (handleOnline exStF1).failedActions.any (fun p => p.1 == "F") = false :=
  (c5_online_clears_failed exStF1 "F" (by decide)).1 (by decide)

/-! ### C9 — failed records stay in the queue; stats accounting -/

/-- `bumpRetry` preserves the queue's id list. -/
theorem bumpRetry_queue_ids :
    ∀ (q : List QueuedAction) (i : String),
      (bumpRetry q i).1.map (fun a => a.id) = q.map (fun a => a.id) := by
  intro q i
  induction q with
  | nil => rfl
  | cons a rest ih =>
    by_cases h : (a.id == i) = true
    · simp [bumpRetry, h]
    · have hb : (a.id == i) = false := by
        simp only [Bool.not_eq_true] at h; exact h
      simp [bumpRetry, hb, ih]

/-- `handleActionError` never removes a record from the queue. -/
theorem handleActionError_queue_ids (st : QueueState) (a : QueuedAction) (err : String) :
    ((handleActionError st a err).1).queue.map (fun x => x.id)
      = st.queue.map (fun x => x.id) := by
  unfold handleActionError
  dsimp only
  split <;> split <;> simp [bumpRetry_queue_ids]

/-- A failed record still in the queue and not processing shows up in both
the failed and the pending views and is counted in both stats fields. -/
theorem failed_record_visible (st : QueueState) (r : QueuedAction)
    (hmem : r ∈ st.queue)
    (hfail : st.failedActions.any (fun p => p.1 == r.id) = true)
    (hproc : st.processing.contains r.id = false) :
    r ∈ getActions st (some .failed) ∧ r ∈ getActions st (some .pending) ∧
    1 ≤ (getStats st).failed ∧ 1 ≤ (getStats st).pending := by
  have h2 : r ∈ st.queue.filter (fun a => !st.processing.contains a.id) :=
    List.mem_filter.mpr ⟨hmem, by rw [hproc]; rfl⟩
  refine ⟨List.mem_filter.mpr ⟨hmem, hfail⟩, h2, ?_, ?_⟩
  · unfold getStats
    dsimp only
    rcases List.any_eq_true.mp hfail with ⟨p, hp, _⟩
    exact List.length_pos.mpr (List.ne_nil_of_mem hp)
  · unfold getStats
    dsimp only
    exact List.length_pos.mpr (List.ne_nil_of_mem h2)

/-- When every processing id names a queue record and ids are duplicate-free
(as the uuid discipline provides), pending and processing partition the
queue. -/
theorem pending_add_processing (st : QueueState)
    (hsub : ∀ i ∈ st.processing, i ∈ st.queue.map (fun a => a.id))
    (hnp : st.processing.Nodup) (hnq : (st.queue.map (fun a => a.id)).Nodup) :
    (getStats st).pending + (getStats st).processing = st.queue.length := by
  have hsplit : ∀ l : List QueuedAction,
      (l.filter (fun a => !st.processing.contains a.id)).length
        + (l.filter (fun a => st.processing.contains a.id)).length = l.length := by
    intro l
    induction l with
    | nil => rfl
    | cons a rest ih =>
      by_cases h : st.processing.contains a.id = true
      · simp only [List.filter_cons, h, Bool.not_true, List.length_cons, if_false, if_true,
          Bool.false_eq_true]
        omega
      · have h' : st.processing.contains a.id = false := by
          simp only [Bool.not_eq_true] at h
          exact h
        simp only [List.filter_cons, h', Bool.not_false, List.length_cons, if_true, if_false,
          Bool.false_eq_true]
        omega
  have hfm : List.filter (fun i => st.processing.contains i) (st.queue.map (fun a => a.id))
      = List.map (fun a => a.id) (st.queue.filter (fun a => st.processing.contains a.id)) :=
    List.filter_map (fun a => a.id) st.queue
  have hperm : (List.filter (fun i => st.processing.contains i)
      (st.queue.map (fun a => a.id))).Perm st.processing := by
    rw [List.perm_ext_iff_of_nodup (hnq.filter _) hnp]
    intro x
    constructor
    · intro hx
      exact List.elem_iff.mp (List.mem_filter.mp hx).2
    · intro hx
      exact List.mem_filter.mpr ⟨hsub x hx, List.elem_iff.mpr hx⟩
  have hlen := hperm.length_eq
  rw [hfm, List.length_map] at hlen
  unfold getStats
  dsimp only
  have h1 := hsplit st.queue
  omega

/-- C9 (amended): a record parked as failed is not removed from the queue;
while not processing it is returned by both `getActions("failed")` and
`getActions("pending")` and counted in both stats fields; and
`pending + processing` equals the queue length in every state in which each
processing id still names a queue record and ids are duplicate-free (a
filtered `clear` during processing violates that side condition — see the
counterexample). -/
theorem c9_failed_in_queue :
    (∀ (st : QueueState) (a : QueuedAction) (err : String),
      ((handleActionError st a err).1).queue.map (fun x => x.id)
        = st.queue.map (fun x => x.id)) ∧
    (∀ (st : QueueState) (r : QueuedAction), r ∈ st.queue →
      st.failedActions.any (fun p => p.1 == r.id) = true →
      st.processing.contains r.id = false →
      r ∈ getActions st (some .failed) ∧ r ∈ getActions st (some .pending) ∧
      1 ≤ (getStats st).failed ∧ 1 ≤ (getStats st).pending) ∧
    (∀ st : QueueState,
      (∀ i ∈ st.processing, i ∈ st.queue.map (fun a => a.id)) →
      st.processing.Nodup → (st.queue.map (fun a => a.id)).Nodup →
      (getStats st).pending + (getStats st).processing = st.queue.length) :=
  ⟨handleActionError_queue_ids, failed_record_visible, pending_add_processing⟩

/-- C9 witness: the failed one-record queue `exStZ1` (record `Z`, one
failure, ceiling 0) exhibits all three parts at concrete inputs. -/
theorem c9_failed_in_queue_witness :
    (((handleActionError exStZ exRecZ "boom").1).queue.map (fun x => x.id)
      = exStZ.queue.map (fun x => x.id)) ∧
    ({ exRecZ with retryCount := 1 } ∈ getActions exStZ1 (some .failed) ∧
     { exRecZ with retryCount := 1 } ∈ getActions exStZ1 (some .pending) ∧
     1 ≤ (getStats exStZ1).failed ∧ 1 ≤ (getStats exStZ1).pending) ∧
    (getStats exStZ1).pending + (getStats exStZ1).processing = exStZ1.queue.length :=
  ⟨c9_failed_in_queue.1 exStZ exRecZ "boom",
   c9_failed_in_queue.2.1 exStZ1 { exRecZ with retryCount := 1 }
     (by decide) (by decide) (by decide),
   c9_failed_in_queue.2.2 exStZ1 (by decide) (by decide) (by decide)⟩

/-! ### C3 — concurrency cap bounds and dispatch limit -/

/-- C3 (amended): while online, the computed concurrency cap
`min(batchSize / 10, 5)` lies between `1/2` and `5` inclusive — the slow-2g
profile yields `1/2`, below the claimed lower bound `1` — and the number of
actions a tick dispatches never exceeds the remaining slots
`max(cap - |processing|, 0)`. -/
theorem c3_concurrency_cap (st : QueueState) (conn : ConnectionInfo)
    (hon : conn.isOnline = true) :
    (1 / 2 ≤ maxConcurrent conn ∧ maxConcurrent conn ≤ 5) ∧
    ((selectActionsForTick st conn).length : ℚ)
      ≤ max (maxConcurrent conn - (st.processing.length : ℚ)) 0 := by
  constructor
  · obtain ⟨ct, et, dl, rt, sd, onl⟩ := conn
    simp only at hon
    subst hon
    cases et <;>
      constructor <;>
        norm_num [maxConcurrent, getAdaptiveConfig, getCurrentProfile, profiles]
  · by_cases hlt : ((st.processing.length : ℚ)) < maxConcurrent conn
    · have hfilter : selectActionsForTick st conn
          = sliceTo (availableActions st) (maxConcurrent conn - (st.processing.length : ℚ)) := by
        unfold selectActionsForTick
        dsimp only
        rw [decide_eq_true hlt]
        have hft : ∀ l : List QueuedAction, l.filter (fun _ => true) = l := by
          intro l; induction l with
          | nil => rfl
          | cons a rest ih => simp [List.filter_cons, ih]
        exact hft _
      have hpos : (0 : ℚ) ≤ maxConcurrent conn - (st.processing.length : ℚ) := by linarith
      have he : (0 : Int) ≤ ⌊maxConcurrent conn - (st.processing.length : ℚ)⌋ :=
        Int.floor_nonneg.mpr hpos
      have hlen1 : (sliceTo (availableActions st)
            (maxConcurrent conn - (st.processing.length : ℚ))).length
          ≤ (⌊maxConcurrent conn - (st.processing.length : ℚ)⌋).toNat := by
        unfold sliceTo jsTrunc
        dsimp only
        rw [if_pos hpos, if_neg (by omega)]
        simp [List.length_take]
      have hcast : (((⌊maxConcurrent conn - (st.processing.length : ℚ)⌋).toNat : Nat) : ℚ)
          ≤ maxConcurrent conn - (st.processing.length : ℚ) := by
        have h1 : ((⌊maxConcurrent conn - (st.processing.length : ℚ)⌋ : Int) : ℚ)
            ≤ maxConcurrent conn - (st.processing.length : ℚ) := Int.floor_le _
        have h2 : (((⌊maxConcurrent conn - (st.processing.length : ℚ)⌋).toNat : Nat) : ℚ)
            = ((⌊maxConcurrent conn - (st.processing.length : ℚ)⌋ : Int) : ℚ) := by
          rw [← Int.cast_natCast]
          rw [Int.toNat_of_nonneg he]
        rw [h2]
        exact h1
      rw [hfilter]
      calc ((sliceTo (availableActions st)
              (maxConcurrent conn - (st.processing.length : ℚ))).length : ℚ)
          ≤ (((⌊maxConcurrent conn - (st.processing.length : ℚ)⌋).toNat : Nat) : ℚ) := by
            exact_mod_cast Nat.cast_le.mpr hlen1
        _ ≤ maxConcurrent conn - (st.processing.length : ℚ) := hcast
        _ ≤ max (maxConcurrent conn - (st.processing.length : ℚ)) 0 := le_max_left _ _
    · have hempty : selectActionsForTick st conn = [] := by
        unfold selectActionsForTick
        dsimp only
        rw [decide_eq_false hlt]
        have hff : ∀ l : List QueuedAction, l.filter (fun _ => false) = [] := by
          intro l; induction l with
          | nil => rfl
          | cons a rest ih => simp [List.filter_cons, ih]
        exact hff _
      rw [hempty]
      simp

/-- C3 witness: applied at a concrete online 2g connection and the
two-record queue. -/
theorem c3_concurrency_cap_witness :
    (1 / 2 ≤ maxConcurrent exConn2g ∧ maxConcurrent exConn2g ≤ 5) ∧
    ((selectActionsForTick exStAB exConn2g).length : ℚ)
      ≤ max (maxConcurrent exConn2g - (exStAB.processing.length : ℚ)) 0 :=
  c3_concurrency_cap exStAB exConn2g rfl

/-! ### C6 — priority ordering -/

/-- The queue after enqueueing [low, critical, normal] records into a fresh
queue (no duplicates, timestamps 1, 2, 3). -/
def exStP : QueueState :=
  (enqueue ((enqueue ((enqueue initialState
    (exReq (.num 10) .low .skip 3) "L" 1 "x" 1).2)
    (exReq (.num 11) .critical .skip 3) "C" 2 "y" 2).2)
    (exReq (.num 12) .normal .skip 3) "N" 3 "z" 3).2

/-- C6 (amended): a non-duplicate `enqueue` re-sorts the whole queue into
priority-weight-descending, timestamp-ascending order, and `dequeue` and
`clear` preserve that order; the conflict branches (`overwrite`/`merge`
timestamp rewrites, `manual` appends) skip the re-sort and can break it —
see the counterexample.  Enqueueing [low, critical, normal] yields
`getActions()` order [critical, normal, low]. -/
theorem c6_priority_order :
    (∀ (st : QueueState) (req : EnqueueRequest) (newId : String) (now : Int)
        (manualId : String) (manualNow : Int),
      findDuplicateAction st.queue (mkQueuedAction req newId now) = none →
      List.Sorted queueLE
        (getActions (enqueue st req newId now manualId manualNow).2 none)) ∧
    (∀ (st : QueueState) (actionId : String),
      List.Sorted queueLE (getActions st none) →
      List.Sorted queueLE (getActions (dequeue st actionId).2 none)) ∧
    (∀ (st : QueueState) (f : Option (QueuedAction → Bool)),
      List.Sorted queueLE (getActions st none) →
      List.Sorted queueLE (getActions (clear st f).2 none)) ∧
    (getActions exStP none).map (fun a => a.id) = ["C", "N", "L"] ∧
    (getActions exStP none).map (fun a => a.priority) = [.critical, .normal, .low] := by
  refine ⟨?_, ?_, ?_, by decide, by decide⟩
  · intro st req newId now manualId manualNow hdup
    unfold enqueue
    dsimp only
    rw [hdup]
    unfold getActions sortQueueByPriority
    exact List.sorted_insertionSort queueLE _
  · intro st actionId hs
    unfold getActions at hs ⊢
    unfold dequeue
    cases hidx : st.queue.findIdx? (fun a => a.id == actionId) with
    | none => exact hs
    | some i => exact List.Pairwise.sublist (List.eraseIdx_sublist st.queue i) hs
  · intro st f hs
    unfold getActions at hs ⊢
    unfold clear
    cases f with
    | none => exact List.sorted_nil
    | some g =>
      dsimp only
      exact List.Pairwise.sublist (List.filter_sublist st.queue) hs

/-- C6 witness: a non-duplicate enqueue against the (sorted) two-record
queue, a dequeue and a filtered clear, at concrete inputs. -/
theorem c6_priority_order_witness :
    List.Sorted queueLE
      (getActions (enqueue exStAB (exReq (.num 9) .high .skip 3) "H" 4 "w" 4).2 none) ∧
    List.Sorted queueLE (getActions (dequeue exStAB "A").2 none) ∧
    List.Sorted queueLE (getActions (clear exStAB (some (fun a => a.id == "A"))).2 none) :=
  ⟨c6_priority_order.1 exStAB (exReq (.num 9) .high .skip 3) "H" 4 "w" 4 (by decide),
   c6_priority_order.2.1 exStAB "A" (by decide),
   c6_priority_order.2.2.1 exStAB (some (fun a => a.id == "A")) (by decide)⟩

/-! ### C1 — retry ceiling -/

/-- `iterFail` peels its last step. -/
theorem iterFail_succ (r : QueuedAction) (err : String) :
    ∀ (k : Nat) (st : QueueState),
      iterFail r err (k + 1) st = (handleActionError (iterFail r err k st) r err).1 := by
  intro k
  induction k with
  | zero => intro st; rfl
  | succ n ih =>
    intro st
    calc iterFail r err (n + 1 + 1) st
        = iterFail r err (n + 1) ((handleActionError st r err).1) := rfl
      _ = (handleActionError (iterFail r err n ((handleActionError st r err).1)) r err).1 :=
          ih _
      _ = (handleActionError (iterFail r err (n + 1) st) r err).1 := rfl

/-- `find?` after `modifyFirst` returns the rewritten record (when the
rewrite keeps the predicate). -/
theorem find?_modifyFirst (p : QueuedAction → Bool) (f : QueuedAction → QueuedAction) :
    ∀ (l : List QueuedAction) (e : QueuedAction),
      l.find? p = some e → p (f e) = true →
      (modifyFirst p f l).find? p = some (f e) := by
  intro l
  induction l with
  | nil => intro e h _; cases h
  | cons a rest ih =>
    intro e h hpf
    by_cases hpa : p a = true
    · simp only [List.find?, hpa] at h
      cases h
      simp only [modifyFirst, hpa, if_true, List.find?, hpf]
    · have hb : p a = false := by
        simp only [Bool.not_eq_true] at hpa; exact hpa
      simp only [List.find?, hb] at h
      simp only [modifyFirst, hb, Bool.false_eq_true, if_false, List.find?]
      exact ih e h hpf

/-- `Map.set` leaves its key in the key list. -/
theorem mapSet_mem_keys (m : List (String × String)) (k v : String) :
    k ∈ (mapSet m k v).map (fun p => p.1) := by
  unfold mapSet
  by_cases h : m.any (fun p => p.1 == k)
  · rw [if_pos h]
    rcases List.any_eq_true.mp h with ⟨p, hp, hpk⟩
    refine List.mem_map.mpr ⟨(k, v), List.mem_map.mpr ⟨p, hp, ?_⟩, rfl⟩
    simp [hpk]
  · rw [if_neg h]
    exact List.mem_map.mpr ⟨(k, v), List.mem_append_right _ (List.mem_singleton.mpr rfl), rfl⟩

/-- A failed key makes the failed-map `any` test true. -/
theorem failedKeys_any (st : QueueState) (i : String) (h : i ∈ failedKeys st) :
    st.failedActions.any (fun p => p.1 == i) = true := by
  rcases List.mem_map.mp h with ⟨p, hp, hq⟩
  exact List.any_eq_true.mpr ⟨p, hp, by rw [hq]; exact beq_self_eq_true i⟩

/-- The scheduler never selects an action whose id is in the failed map. -/
theorem selectActionsForTick_excludes_failed (st : QueueState) (conn : ConnectionInfo)
    (i : String) (hf : i ∈ failedKeys st) :
    i ∉ (selectActionsForTick st conn).map (fun a => a.id) := by
  intro hmem
  rcases List.mem_map.mp hmem with ⟨a, ha, hid⟩
  have h2 : a ∈ availableActions st := by
    unfold selectActionsForTick at ha
    dsimp only at ha
    have h1 := (List.mem_filter.mp ha).1
    unfold sliceTo at h1
    dsimp only at h1
    exact List.mem_of_mem_take h1
  unfold availableActions at h2
  have h3 := (List.mem_filter.mp h2).2
  rw [Bool.and_eq_true, Bool.and_eq_true] at h3
  have h4 := h3.1.2
  rw [hid, failedKeys_any st i hf] at h4
  simp at h4

/-- C1 (amended): for a record with `maxRetries = m ≥ 1` and a fresh retry
counter whose executor fails on every dispatch, after `k ≤ m` failures the
record's counter reads exactly `k`, the record is in the failed map exactly
when `k = m` (never before, and `maxRetries = 0` is the counterexample to
the unrestricted claim), and once failed the scheduler never selects it
again — so the counter never exceeds the ceiling. -/
theorem c1_retry_ceiling (st : QueueState) (r : QueuedAction) (err : String) (m : Nat)
    (hfind : st.queue.find? (fun x => x.id == r.id) = some r)
    (hrc : r.retryCount = 0) (hmr : r.maxRetries = m) (hm : 1 ≤ m)
    (hnf : r.id ∉ failedKeys st) :
    ∀ k, k ≤ m →
      ((iterFail r err k st).queue.find? (fun x => x.id == r.id)
        = some { r with retryCount := k }) ∧
      (r.id ∈ failedKeys (iterFail r err k st) ↔ k = m) ∧
      (k = m → ∀ conn : ConnectionInfo,
        r.id ∉ (selectActionsForTick (iterFail r err k st) conn).map (fun a => a.id)) := by
  have main : ∀ k, k ≤ m →
      ((iterFail r err k st).queue.find? (fun x => x.id == r.id)
        = some { r with retryCount := k }) ∧
      (r.id ∈ failedKeys (iterFail r err k st) ↔ k = m) := by
    intro k
    induction k with
    | zero =>
      intro _
      refine ⟨?_, ?_⟩
      · have hr0 : ({ r with retryCount := 0 } : QueuedAction) = r := by rw [← hrc]
        rw [hr0]
        exact hfind
      · exact ⟨fun hc => absurd hc hnf, fun h0 => absurd h0.symm (by omega)⟩
    | succ n ih =>
      intro hle
      obtain ⟨ihf, ihiff⟩ := ih (by omega)
      have hnotf : r.id ∉ failedKeys (iterFail r err n st) := by
        intro hc
        have := ihiff.mp hc
        omega
      rw [iterFail_succ]
      unfold handleActionError
      dsimp only
      rw [bumpRetry_spec _ r.id _ ihf]
      dsimp only
      have hfind' : (modifyFirst (fun x => x.id == r.id)
            (fun x => { x with retryCount := x.retryCount + 1 })
            (iterFail r err n st).queue).find? (fun x => x.id == r.id)
          = some { r with retryCount := n + 1 } := by
        exact find?_modifyFirst (fun x => x.id == r.id)
          (fun x => { x with retryCount := x.retryCount + 1 })
          (iterFail r err n st).queue { r with retryCount := n } ihf (by simp)
      by_cases hcase : n + 1 = m
      · rw [if_pos (by rw [hmr]; omega)]
        refine ⟨hfind', ?_⟩
        constructor
        · intro _; exact hcase
        · intro _
          unfold failedKeys
          dsimp only
          exact mapSet_mem_keys _ r.id err
      · rw [if_neg (by rw [hmr]; omega)]
        refine ⟨hfind', ?_⟩
        constructor
        · intro hc
          exact absurd hc hnotf
        · intro hp
          exact absurd hp hcase
  intro k hk
  obtain ⟨h1, h2⟩ := main k hk
  exact ⟨h1, h2, fun hkm conn =>
    selectActionsForTick_excludes_failed _ conn r.id (h2.mpr hkm)⟩

/-- C1 witness: record `G` (`maxRetries = 3`, counter 0) after exactly 3
failures: counter reads 3, failed, and never selected again (2g tick). -/
theorem c1_retry_ceiling_witness :
    ((iterFail exRecG "e" 3 exStG).queue.find? (fun x => x.id == exRecG.id)
      = some { exRecG with retryCount := 3 }) ∧
    exRecG.id ∈ failedKeys (iterFail exRecG "e" 3 exStG) ∧
    exRecG.id ∉ (selectActionsForTick (iterFail exRecG "e" 3 exStG) exConn2g).map
      (fun a => a.id) := by
  have h := c1_retry_ceiling exStG exRecG "e" 3 (by decide) rfl rfl (by decide)
    (by decide) 3 (by decide)
  exact ⟨h.1, h.2.1.mpr rfl, h.2.2 rfl exConn2g⟩
